import Mathlib

/-!
Verification of the BaixadorVideos repository (a thin CLI wrapper around an
external video-download engine) against its natural-language specification.

The Python sources are shallowly embedded as Lean functions:

* strings are `List Char`;
* the two Twitter/X URL regexes of `TwitterDownloader.validate_url` /
  `validar_url` (`re.match`, i.e. anchored at the start only) are embedded as
  an executable matcher (`matchPat1`, `matchPat2`);
* `re.search(r'/status/(\d+)')` of `extract_video_id` / `extrair_tweet_id` is
  embedded as a left-to-right scan for the leftmost occurrence of `/status/`
  that is immediately followed by a digit, capturing the maximal digit run
  (exactly the leftmost-match, greedy `\d+` semantics of `re.search`);
* Python dicts (the download result records) are association lists of
  key/value pairs, so that presence and absence of a key is observable;
* the external engine `yt_dlp.YoutubeDL` / `extract_info` is an opaque
  parameter of type `EngineOutcome`: the download functions additionally
  return a `Bool` that records whether the engine was invoked;
* `\d` is modelled as an ASCII digit and `str.lower` as ASCII lowering
  (all domain names and URL patterns in this repository are ASCII).
-/

/-- Convert a Lean string literal to the `List Char` representation used
throughout this development. -/
def str (s : String) : List Char := s.toList

/-- The ASCII apostrophe, written by code point to keep source messages
containing quotes representable. -/
def quoteC : Char := Char.ofNat 39

/-- The literal path marker `/status/` of the tweet-id regex
`r'/status/(\d+)'` (src/downloaders/twitter.py, src/xdownload.py). -/
def statusMarker : List Char := str "/status/"

/-- `firstIsDigit s` holds iff `s` starts with an ASCII digit; this is the
`\d` obligation of the regexes at the point right after a literal. -/
def firstIsDigit : List Char → Bool
  | c :: _ => c.isDigit
  | [] => false

/-- `statusDigitsAt s` holds iff the pattern `/status/\d` matches at the very
start of `s`, i.e. `s` begins with the marker `/status/` followed by at least
one digit.  This is the per-position test of `re.search(r'/status/(\d+)')`. -/
def statusDigitsAt (s : List Char) : Bool :=
  statusMarker.isPrefixOf s && firstIsDigit (s.drop 8)

/-- Embedding of `TwitterDownloader.extract_video_id`
(src/downloaders/twitter.py):
`re.search(r'/status/(\d+)', url)` scans left to right for the first position
where `/status/` followed by a digit matches and returns the greedy capture
`(\d+)`, i.e. the maximal digit run right after the marker; `None` if there is
no match. -/
def extract_video_id : List Char → Option (List Char)
  | [] => Option.none
  | c :: rest =>
      if statusDigitsAt (c :: rest) then
        some (((c :: rest).drop 8).takeWhile Char.isDigit)
      else extract_video_id rest

/-- Embedding of `extrair_tweet_id` (src/xdownload.py); its body is the same
`re.search(r'/status/(\d+)', url)` as `TwitterDownloader.extract_video_id`,
so it is modelled by the same scan. -/
def extrair_tweet_id : List Char → Option (List Char)
  | [] => Option.none
  | c :: rest =>
      if statusDigitsAt (c :: rest) then
        some (((c :: rest).drop 8).takeWhile Char.isDigit)
      else extrair_tweet_id rest

/-- `dropLit p s` consumes the literal `p` at the head of `s`: `some` of the
remainder if `p` is a prefix of `s`, `none` otherwise.  Building block for
the regex matcher. -/
def dropLit (p s : List Char) : Option (List Char) :=
  if p.isPrefixOf s then some (s.drop p.length) else Option.none

/-- Matcher for the regex fragment `https?://`: the two scheme literals are
mutually exclusive (5th character `s` vs `:`), so trying `https://` first is
equivalent to the regex alternation with backtracking. -/
def dropScheme (s : List Char) : Option (List Char) :=
  match dropLit (str "https://") s with
  | some r => some r
  | Option.none => dropLit (str "http://") s

/-- Matcher for the regex fragment `(www\.)?(twitter|x)\.com`.  Greedily
consuming an optional `www.` and then the site alternation is equivalent to
the backtracking regex: a string starting with `www.` cannot also start with
`twitter` or `x`, and `twitter`/`x` are distinguished by their first
character, so no backtracking point is ever live. -/
def dropHost (s : List Char) : Option (List Char) :=
  let s1 := match dropLit (str "www.") s with
    | some r => r
    | Option.none => s
  match dropLit (str "twitter") s1 with
  | some r => dropLit (str ".com") r
  | Option.none =>
    match dropLit (str "x") s1 with
    | some r => dropLit (str ".com") r
    | Option.none => Option.none

/-- Matcher for `.+/status/\d+` preceded by nothing (applied after the `/`
that follows `.com` in pattern 1): consume one or more non-newline characters
(`.` does not match a newline in Python), then require `/status/` followed by
a digit.  The trailing `\d+`/end is not anchored, matching `re.match`. -/
def dotPlusStatus : List Char → Bool
  | [] => false
  | c :: rest => (c != '\n') && (statusDigitsAt rest || dotPlusStatus rest)

/-- Matcher for the tail `/.+/status/\d+` of pattern 1 after `\.com`. -/
def pat1Tail : List Char → Bool
  | [] => false
  | c :: v => (c == '/') && dotPlusStatus v

/-- Matcher for the tail `/i/status/\d+` of pattern 2 after `\.com`. -/
def pat2Tail (u : List Char) : Bool :=
  (str "/i/status/").isPrefixOf u && firstIsDigit (u.drop 10)

/-- Embedding of `re.match(r'https?://(www\.)?(twitter|x)\.com/.+/status/\d+', url)`
viewed as a Boolean (a match object is truthy): does some prefix of `url`
match the pattern? -/
def matchPat1 (url : List Char) : Bool :=
  match dropScheme url with
  | some t =>
    match dropHost t with
    | some u => pat1Tail u
    | Option.none => false
  | Option.none => false

/-- Embedding of `re.match(r'https?://(www\.)?(twitter|x)\.com/i/status/\d+', url)`
viewed as a Boolean. -/
def matchPat2 (url : List Char) : Bool :=
  match dropScheme url with
  | some t =>
    match dropHost t with
    | some u => pat2Tail u
    | Option.none => false
  | Option.none => false

/-- Embedding of `TwitterDownloader.validate_url` (src/downloaders/twitter.py):
`any(re.match(pattern, url) for pattern in patterns)` over the two patterns. -/
def validate_url (url : List Char) : Bool :=
  matchPat1 url || matchPat2 url

/-- Embedding of `validar_url` (src/xdownload.py); its body is identical to
`TwitterDownloader.validate_url`. -/
def validar_url (url : List Char) : Bool :=
  matchPat1 url || matchPat2 url

/-- The downloader classes of the registry.  The repository registers a
single class, `TwitterDownloader` (src/downloaders/twitter.py). -/
inductive Downloader
  | TwitterDownloader
deriving DecidableEq

/-- Class attribute `supported_domains` of each downloader
(src/downloaders/twitter.py line 13). -/
def supported_domains : Downloader → List (List Char)
  | Downloader.TwitterDownloader => [str "twitter.com", str "x.com"]

/-- Class attribute `name` of `TwitterDownloader`. -/
def twitterName : List Char := str "twitter"

/-- Python's substring test `needle in hay` on strings. -/
def containsSub (needle hay : List Char) : Bool :=
  hay.tails.any (fun t => needle.isPrefixOf t)

/-- Embedding of `BaseDownloader.supports_url` (src/downloaders/base.py):
`any(domain in url.lower() for domain in cls.supported_domains)` written as a
loop with early return in the source. -/
def supports_url (d : Downloader) (url : List Char) : Bool :=
  (supported_domains d).any (fun dom => containsSub dom (url.map Char.toLower))

/-- The registry dict `DOWNLOADERS` (src/downloaders/__init__.py), an
insertion-ordered mapping from platform alias to downloader class. -/
def DOWNLOADERS : List (List Char × Downloader) :=
  [(str "twitter", Downloader.TwitterDownloader),
   (str "x", Downloader.TwitterDownloader)]

/-- The error message of `get_downloader`'s `ValueError`:
`f"Plataforma '{platform}' nao suportada. Disponiveis: {available}"` where
`available = ', '.join(DOWNLOADERS.keys())`. -/
def unsupportedMsg (platform : List Char) : List Char :=
  str "Plataforma " ++ (quoteC :: (platform ++ (quoteC ::
    str " nao suportada. Disponiveis: "))) ++
    List.intercalate (str ", ") (DOWNLOADERS.map (fun kv => kv.1))

/-- Embedding of `get_downloader` (src/downloaders/__init__.py): lowercase the
alias, raise `ValueError` (modelled as `Except.error` carrying the message) if
it is not a key of `DOWNLOADERS`, otherwise return the class. -/
def get_downloader (platform : List Char) : Except (List Char) Downloader :=
  let p := platform.map Char.toLower
  match DOWNLOADERS.find? (fun kv => kv.1 == p) with
  | some kv => Except.ok kv.2
  | Option.none => Except.error (unsupportedMsg p)

/-- Embedding of `detect_platform` (src/downloaders/__init__.py): the first
registered alias whose class supports the URL, else `None`. -/
def detect_platform (url : List Char) : Option (List Char) :=
  (DOWNLOADERS.find? (fun kv => supports_url kv.2 url)).map (fun kv => kv.1)

/-- Values of the Python result dicts: booleans, strings, integers and
`None`. -/
inductive Val
  | bool (b : Bool)
  | str (s : List Char)
  | int (n : Int)
  | none
deriving DecidableEq

/-- A Python dict with string keys, as an insertion-ordered association
list.  Key presence is observable, matching dict semantics. -/
def Dict : Type := List (List Char × Val)

instance : DecidableEq Dict := by
  unfold Dict; infer_instance

/-- `d[k] = v` on a Python dict: overwrite in place if the key exists,
append at the end otherwise. -/
def dictSet : Dict → List Char → Val → Dict
  | [], k, v => [(k, v)]
  | (k1, v1) :: rest, k, v =>
      if k1 = k then (k1, v) :: rest else (k1, v1) :: dictSet rest k v

/-- `d.get(k)` / key lookup on a Python dict. -/
def dictLookup : Dict → List Char → Option Val
  | [], _ => Option.none
  | (k1, v1) :: rest, k => if k1 = k then some v1 else dictLookup rest k

/-- Python truthiness of a `Val` (used for `if resultado['success']`). -/
def valTruthy : Val → Bool
  | Val.bool b => b
  | Val.str s => !s.isEmpty
  | Val.int n => n != 0
  | Val.none => false

/-- `Val` of `info.get(key)` for an optional string field. -/
def optStrVal : Option (List Char) → Val
  | some s => Val.str s
  | Option.none => Val.none

/-- `Val` of `info.get(key)` for an optional integer field. -/
def optIntVal : Option Int → Val
  | some n => Val.int n
  | Option.none => Val.none

/-- The metadata record produced by a successful `ydl.extract_info` call, as
consumed by the download functions: optional fields accessed via
`info.get(...)`, plus the path computed by `ydl.prepare_filename(info)`. -/
structure EngineInfo where
  title : Option (List Char)
  duration : Option Int
  uploader : Option (List Char)
  view_count : Option Int
  like_count : Option Int
  filepath : List Char

/-- Outcome of one invocation of the external engine
(`yt_dlp.YoutubeDL(...)` + `extract_info`), the opaque collaborator of §6 of
the spec: a truthy info record, a falsy (`None`) info, or one of the three
exception classes caught by the download functions. -/
inductive EngineOutcome
  | info (i : EngineInfo)
  | noInfo
  | downloadError (m : List Char)
  | extractorError (m : List Char)
  | unexpectedError (m : List Char)

/-- Embedding of `BaseDownloader.download` (src/downloaders/base.py).  The
returned `Bool` records whether the external engine was invoked (the `with
yt_dlp.YoutubeDL(...)` block was entered).  On validation failure the source
returns a dict literal with only the keys `success` and `error`; otherwise it
builds the six-field result dict and updates it according to the engine
outcome (the three `except` arms set `error`; a truthy info sets `success`,
`filepath`, `title` and adds `duration` and `uploader`). -/
def download (eng : EngineOutcome) (url : List Char) : Dict × Bool :=
  if validate_url url = false then
    ([(str "success", Val.bool false),
      (str "error", Val.str (str "URL invalida para " ++ twitterName))], false)
  else
    let video_id := extract_video_id url
    let r0 : Dict :=
      [(str "success", Val.bool false),
       (str "filepath", Val.none),
       (str "title", Val.none),
       (str "error", Val.none),
       (str "video_id", optStrVal video_id),
       (str "platform", Val.str twitterName)]
    match eng with
    | EngineOutcome.info i =>
        let r1 := dictSet r0 (str "success") (Val.bool true)
        let r2 := dictSet r1 (str "filepath") (Val.str i.filepath)
        let r3 := dictSet r2 (str "title")
          (Val.str (i.title.getD (str "Sem titulo")))
        let r4 := dictSet r3 (str "duration") (optIntVal i.duration)
        let r5 := dictSet r4 (str "uploader") (optStrVal i.uploader)
        (r5, true)
    | EngineOutcome.noInfo => (r0, true)
    | EngineOutcome.downloadError m =>
        (dictSet r0 (str "error") (Val.str (str "Erro de download: " ++ m)), true)
    | EngineOutcome.extractorError m =>
        (dictSet r0 (str "error")
          (Val.str (str "Erro ao extrair informacoes: " ++ m)), true)
    | EngineOutcome.unexpectedError m =>
        (dictSet r0 (str "error") (Val.str (str "Erro inesperado: " ++ m)), true)

/-- Embedding of `baixar_video` (src/xdownload.py).  Same orchestration as
`BaseDownloader.download` with the module-level helpers: the result dict uses
the key `tweet_id` (no `platform` key), and a truthy info additionally
records `view_count` and `like_count`. -/
def baixar_video (eng : EngineOutcome) (url : List Char) : Dict × Bool :=
  if validar_url url = false then
    ([(str "success", Val.bool false),
      (str "error", Val.str (str "URL inválida. Use uma URL do Twitter/X no formato: https://x.com/usuario/status/ID"))],
     false)
  else
    let tweet_id := extrair_tweet_id url
    let r0 : Dict :=
      [(str "success", Val.bool false),
       (str "filepath", Val.none),
       (str "title", Val.none),
       (str "error", Val.none),
       (str "tweet_id", optStrVal tweet_id)]
    match eng with
    | EngineOutcome.info i =>
        let r1 := dictSet r0 (str "success") (Val.bool true)
        let r2 := dictSet r1 (str "filepath") (Val.str i.filepath)
        let r3 := dictSet r2 (str "title")
          (Val.str (i.title.getD (str "Sem título")))
        let r4 := dictSet r3 (str "duration") (optIntVal i.duration)
        let r5 := dictSet r4 (str "uploader") (optStrVal i.uploader)
        let r6 := dictSet r5 (str "view_count") (optIntVal i.view_count)
        let r7 := dictSet r6 (str "like_count") (optIntVal i.like_count)
        (r7, true)
    | EngineOutcome.noInfo => (r0, true)
    | EngineOutcome.downloadError m =>
        (dictSet r0 (str "error") (Val.str (str "Erro de download: " ++ m)), true)
    | EngineOutcome.extractorError m =>
        (dictSet r0 (str "error")
          (Val.str (str "Erro ao extrair informacoes: " ++ m)), true)
    | EngineOutcome.unexpectedError m =>
        (dictSet r0 (str "error") (Val.str (str "Erro inesperado: " ++ m)), true)

/-- Embedding of `listar_formatos` (src/xdownload.py): it prints the format
table or an error message but its `try`/`except Exception` swallows every
engine failure, so it always returns normally with no value. -/
def listar_formatos (_eng : EngineOutcome) (_url : List Char) : Unit := ()

deriving instance DecidableEq for Except

/-- Truthiness of `resultado['success']` as read by `main`.  On every dict
the model produces the key is present; an absent key (Python `KeyError`) is
mapped to `false`, which is never exercised. -/
def resultSuccess (r : Dict) : Bool :=
  match dictLookup r (str "success") with
  | some v => valTruthy v
  | Option.none => false

/-- Embedding of `main` (src/xdownload.py), returning the process exit code
(Lean reserves the name `main` for an entry point, hence the renaming):
fewer than two argv entries prints usage and returns 1; `--formatos` with a
following argument runs `listar_formatos` and returns 0 unconditionally;
otherwise `argv[1]` is downloaded and the code is 0 iff
`resultado['success']` is truthy. -/
def xdownloadMain (eng : EngineOutcome) (argv : List (List Char)) : Int :=
  match argv with
  | _prog :: a1 :: rest =>
      if a1 = str "--formatos" ∧ rest ≠ [] then
        let _fmt := listar_formatos eng (rest.headD [])
        0
      else
        if resultSuccess (baixar_video eng a1).1 then 0 else 1
  | _ => 1

/-! ## Specification-side predicates

These definitions follow the words of the specification / claims, for
comparison with the embedded code. -/

/-- Spec-side (claim C2, original wording): the URL matches
`https://(www.)?(twitter|x).com/<user>/status/<digits>` or
`https://(www.)?(twitter|x).com/i/status/<digits>` taken literally: scheme
`https` only, `<user>` a nonempty path segment (no `/`, no newline),
`<digits>` a nonempty digit run, and nothing after it. -/
def SpecExact (url : List Char) : Prop :=
  ∃ w site,
    (w = [] ∨ w = str "www.") ∧ (site = str "twitter" ∨ site = str "x") ∧
    ((∃ user d, user ≠ [] ∧ (∀ ch ∈ user, ch ≠ '/' ∧ ch ≠ '\n') ∧
        d ≠ [] ∧ (∀ ch ∈ d, ch.isDigit = true) ∧
        url = str "https://" ++ (w ++ (site ++ (str ".com/" ++
          (user ++ (str "/status/" ++ d)))))) ∨
     (∃ d, d ≠ [] ∧ (∀ ch ∈ d, ch.isDigit = true) ∧
        url = str "https://" ++ (w ++ (site ++ (str ".com/i/status/" ++ d)))))

/-- Spec-side (claim C2, amended): some prefix of the URL matches
`https?://(www\.)?(twitter|x)\.com/.+/status/\d` — scheme `http` or `https`,
then an optional `www.`, the site alternation, `.com/`, one or more
non-newline characters, `/status/` and at least one digit, with arbitrary
trailing characters. -/
def MatchesPat1 (url : List Char) : Prop :=
  ∃ sch w site mid c more,
    (sch = str "http://" ∨ sch = str "https://") ∧
    (w = [] ∨ w = str "www.") ∧
    (site = str "twitter" ∨ site = str "x") ∧
    mid ≠ [] ∧ (∀ ch ∈ mid, ch ≠ '\n') ∧ c.isDigit = true ∧
    url = sch ++ (w ++ (site ++ (str ".com/" ++
      (mid ++ (str "/status/" ++ (c :: more))))))

/-- Spec-side (claim C2, amended): some prefix of the URL matches
`https?://(www\.)?(twitter|x)\.com/i/status/\d`, with arbitrary trailing
characters. -/
def MatchesPat2 (url : List Char) : Prop :=
  ∃ sch w site c more,
    (sch = str "http://" ∨ sch = str "https://") ∧
    (w = [] ∨ w = str "www.") ∧
    (site = str "twitter" ∨ site = str "x") ∧
    c.isDigit = true ∧
    url = sch ++ (w ++ (site ++ (str ".com/i/status/" ++ (c :: more))))

/-- Spec-side (claim C3, original wording): the digit run immediately
following the **first** occurrence of `/status/` in the URL, `none` when that
run is empty or the marker does not occur at all. -/
def firstMarkerDigits : List Char → Option (List Char)
  | [] => Option.none
  | c :: rest =>
      if statusMarker.isPrefixOf (c :: rest) then
        match ((c :: rest).drop 8).takeWhile Char.isDigit with
        | [] => Option.none
        | d => some d
      else firstMarkerDigits rest

/-! ## Lemmas about the matcher -/

theorem dropLit_eq_some {p s r : List Char} :
    dropLit p s = some r ↔ s = p ++ r := by
  unfold dropLit
  split
  · rename_i h
    rw [List.isPrefixOf_iff_prefix] at h
    obtain ⟨t, rfl⟩ := h
    rw [List.drop_left]
    constructor
    · intro h2
      obtain rfl : t = r := by simpa using h2
      rfl
    · intro h2
      obtain rfl : t = r := (List.append_right_inj p).mp h2
      rfl
  · rename_i h
    constructor
    · intro h2
      exact absurd h2 (by simp)
    · intro h2
      subst h2
      rw [List.isPrefixOf_iff_prefix] at h
      exact absurd (List.prefix_append p r) h

theorem dropLit_self (p r : List Char) : dropLit p (p ++ r) = some r :=
  dropLit_eq_some.mpr rfl

/-- If the literals `p` and `q` are incompatible (neither is a prefix of the
other), `p` cannot be consumed from any string starting with `q`. -/
theorem dropLit_append_none {p q : List Char} (r : List Char)
    (h1 : p.isPrefixOf q = false) (h2 : q.isPrefixOf p = false) :
    dropLit p (q ++ r) = Option.none := by
  unfold dropLit
  split
  · rename_i h
    rw [List.isPrefixOf_iff_prefix] at h
    rcases le_total p.length q.length with hle | hle
    · have hpq : p <+: q :=
        List.prefix_of_prefix_length_le h (List.prefix_append q r) hle
      rw [← List.isPrefixOf_iff_prefix] at hpq
      rw [hpq] at h1
      exact absurd h1 (by simp)
    · have hqp : q <+: p :=
        List.prefix_of_prefix_length_le (List.prefix_append q r) h hle
      rw [← List.isPrefixOf_iff_prefix] at hqp
      rw [hqp] at h2
      exact absurd h2 (by simp)
  · rfl

theorem dropScheme_eq_some {s r : List Char} :
    dropScheme s = some r ↔
      (s = str "http://" ++ r ∨ s = str "https://" ++ r) := by
  unfold dropScheme
  cases h : dropLit (str "https://") s with
  | some r1 =>
      rw [dropLit_eq_some] at h
      subst h
      constructor
      · intro h2
        obtain rfl : r1 = r := by simpa using h2
        exact Or.inr rfl
      · rintro (h2 | h2)
        · exfalso
          have hn := dropLit_append_none (p := str "http://") (q := str "https://")
            r1 (by decide) (by decide)
          have hs : dropLit (str "http://") (str "https://" ++ r1) = some r :=
            dropLit_eq_some.mpr h2
          rw [hn] at hs
          exact absurd hs (by simp)
        · obtain rfl : r1 = r := (List.append_right_inj (str "https://")).mp h2
          rfl
  | none =>
      constructor
      · intro h2
        rw [dropLit_eq_some] at h2
        exact Or.inl h2
      · rintro (h2 | h2)
        · exact dropLit_eq_some.mpr h2
        · subst h2
          rw [dropLit_self] at h
          exact absurd h (by simp)

theorem dropHost_www_twitter (u : List Char) :
    dropHost (str "www." ++ (str "twitter" ++ (str ".com" ++ u))) = some u := by
  unfold dropHost
  simp only [dropLit_self]

theorem dropHost_www_x (u : List Char) :
    dropHost (str "www." ++ (str "x" ++ (str ".com" ++ u))) = some u := by
  unfold dropHost
  simp only [dropLit_self,
    dropLit_append_none (p := str "twitter") (q := str "x")
      (str ".com" ++ u) (by decide) (by decide)]

theorem dropHost_twitter (u : List Char) :
    dropHost (str "twitter" ++ (str ".com" ++ u)) = some u := by
  unfold dropHost
  simp only [dropLit_self,
    dropLit_append_none (p := str "www.") (q := str "twitter")
      (str ".com" ++ u) (by decide) (by decide)]

theorem dropHost_x (u : List Char) :
    dropHost (str "x" ++ (str ".com" ++ u)) = some u := by
  unfold dropHost
  simp only [dropLit_self,
    dropLit_append_none (p := str "www.") (q := str "x")
      (str ".com" ++ u) (by decide) (by decide),
    dropLit_append_none (p := str "twitter") (q := str "x")
      (str ".com" ++ u) (by decide) (by decide)]

theorem dropHost_eq_some {s u : List Char} :
    dropHost s = some u ↔
      ∃ w site, (w = [] ∨ w = str "www.") ∧
        (site = str "twitter" ∨ site = str "x") ∧
        s = w ++ (site ++ (str ".com" ++ u)) := by
  constructor
  · intro h
    unfold dropHost at h
    cases hw : dropLit (str "www.") s with
    | some s1 =>
        simp only [hw] at h
        rw [dropLit_eq_some] at hw
        cases ht : dropLit (str "twitter") s1 with
        | some r2 =>
            simp only [ht] at h
            rw [dropLit_eq_some] at ht h
            exact ⟨str "www.", str "twitter", Or.inr rfl, Or.inl rfl,
              by rw [hw, ht, h]⟩
        | none =>
            simp only [ht] at h
            cases hx : dropLit (str "x") s1 with
            | some r2 =>
                simp only [hx] at h
                rw [dropLit_eq_some] at hx h
                exact ⟨str "www.", str "x", Or.inr rfl, Or.inr rfl,
                  by rw [hw, hx, h]⟩
            | none =>
                simp only [hx] at h
                exact absurd h (by simp)
    | none =>
        simp only [hw] at h
        cases ht : dropLit (str "twitter") s with
        | some r2 =>
            simp only [ht] at h
            rw [dropLit_eq_some] at ht h
            exact ⟨[], str "twitter", Or.inl rfl, Or.inl rfl,
              by rw [List.nil_append, ht, h]⟩
        | none =>
            simp only [ht] at h
            cases hx : dropLit (str "x") s with
            | some r2 =>
                simp only [hx] at h
                rw [dropLit_eq_some] at hx h
                exact ⟨[], str "x", Or.inl rfl, Or.inr rfl,
                  by rw [List.nil_append, hx, h]⟩
            | none =>
                simp only [hx] at h
                exact absurd h (by simp)
  · rintro ⟨w, site, rfl | rfl, rfl | rfl, rfl⟩
    · rw [List.nil_append]
      exact dropHost_twitter u
    · rw [List.nil_append]
      exact dropHost_x u
    · exact dropHost_www_twitter u
    · exact dropHost_www_x u

theorem com_slash (x : List Char) :
    str ".com" ++ ('/' :: x) = str ".com/" ++ x := rfl

theorem com_i_status (x : List Char) :
    str ".com" ++ (str "/i/status/" ++ x) = str ".com/i/status/" ++ x := rfl

theorem statusDigitsAt_iff {s : List Char} :
    statusDigitsAt s = true ↔
      ∃ c rest, c.isDigit = true ∧ s = str "/status/" ++ (c :: rest) := by
  unfold statusDigitsAt
  rw [Bool.and_eq_true, List.isPrefixOf_iff_prefix]
  constructor
  · rintro ⟨⟨t, rfl⟩, h2⟩
    rw [show (8 : Nat) = statusMarker.length from rfl, List.drop_left] at h2
    cases t with
    | nil => exact absurd h2 (by simp [firstIsDigit])
    | cons c rest => exact ⟨c, rest, h2, rfl⟩
  · rintro ⟨c, rest, hc, rfl⟩
    rw [show str "/status/" = statusMarker from rfl]
    refine ⟨⟨c :: rest, rfl⟩, ?_⟩
    rw [show (8 : Nat) = statusMarker.length from rfl, List.drop_left]
    exact hc

theorem dotPlusStatus_iff {s : List Char} :
    dotPlusStatus s = true ↔
      ∃ mid rest, mid ≠ [] ∧ (∀ c ∈ mid, c ≠ '\n') ∧
        statusDigitsAt rest = true ∧ s = mid ++ rest := by
  induction s with
  | nil =>
      simp only [dotPlusStatus]
      constructor
      · intro h
        exact absurd h (by simp)
      · rintro ⟨mid, rest, hne, _, _, heq⟩
        cases mid with
        | nil => exact absurd rfl hne
        | cons a b => exact absurd heq (by simp)
  | cons c s ih =>
      simp only [dotPlusStatus, Bool.and_eq_true, Bool.or_eq_true, bne_iff_ne]
      constructor
      · rintro ⟨hc, hsd | hdp⟩
        · exact ⟨[c], s, by simp, by simpa using hc, hsd, rfl⟩
        · obtain ⟨mid, rest, hne, hnl, hsd, rfl⟩ := ih.mp hdp
          refine ⟨c :: mid, rest, by simp, ?_, hsd, rfl⟩
          intro ch hch
          rcases List.mem_cons.mp hch with rfl | hm
          · exact hc
          · exact hnl ch hm
      · rintro ⟨mid, rest, hne, hnl, hsd, heq⟩
        cases mid with
        | nil => exact absurd rfl hne
        | cons a mid2 =>
            rw [List.cons_append] at heq
            injection heq with h1 h2
            subst h1
            subst h2
            refine ⟨hnl c (by simp), ?_⟩
            cases mid2 with
            | nil => exact Or.inl (by simpa using hsd)
            | cons b mid3 =>
                refine Or.inr (ih.mpr ⟨b :: mid3, rest, by simp, ?_, hsd, rfl⟩)
                intro ch hch
                exact hnl ch (List.mem_cons_of_mem _ hch)

theorem pat1Tail_iff {u : List Char} :
    pat1Tail u = true ↔ ∃ v, u = '/' :: v ∧ dotPlusStatus v = true := by
  cases u with
  | nil => simp [pat1Tail]
  | cons c v =>
      simp only [pat1Tail, Bool.and_eq_true, beq_iff_eq]
      constructor
      · rintro ⟨rfl, h⟩
        exact ⟨v, rfl, h⟩
      · rintro ⟨v2, heq, h⟩
        injection heq with h1 h2
        subst h1
        subst h2
        exact ⟨rfl, h⟩

theorem pat2Tail_iff {u : List Char} :
    pat2Tail u = true ↔
      ∃ c rest, c.isDigit = true ∧ u = str "/i/status/" ++ (c :: rest) := by
  unfold pat2Tail
  rw [Bool.and_eq_true, List.isPrefixOf_iff_prefix]
  constructor
  · rintro ⟨⟨t, rfl⟩, h2⟩
    rw [show (10 : Nat) = (str "/i/status/").length from rfl, List.drop_left] at h2
    cases t with
    | nil => exact absurd h2 (by simp [firstIsDigit])
    | cons c rest => exact ⟨c, rest, h2, rfl⟩
  · rintro ⟨c, rest, hc, rfl⟩
    refine ⟨⟨c :: rest, rfl⟩, ?_⟩
    rw [show (10 : Nat) = (str "/i/status/").length from rfl, List.drop_left]
    exact hc

theorem matchPat1_iff {url : List Char} :
    matchPat1 url = true ↔ MatchesPat1 url := by
  constructor
  · intro h
    unfold matchPat1 at h
    cases hs : dropScheme url with
    | some t =>
        simp only [hs] at h
        cases hh : dropHost t with
        | some u =>
            simp only [hh] at h
            obtain ⟨w, site, hw, hsite, rfl⟩ := dropHost_eq_some.mp hh
            obtain ⟨v, rfl, hdp⟩ := pat1Tail_iff.mp h
            obtain ⟨mid, rest, hne, hnl, hsd, rfl⟩ := dotPlusStatus_iff.mp hdp
            obtain ⟨c, more, hc, rfl⟩ := statusDigitsAt_iff.mp hsd
            rcases dropScheme_eq_some.mp hs with hs2 | hs2
            · exact ⟨str "http://", w, site, mid, c, more, Or.inl rfl, hw,
                hsite, hne, hnl, hc, by rw [hs2, com_slash]⟩
            · exact ⟨str "https://", w, site, mid, c, more, Or.inr rfl, hw,
                hsite, hne, hnl, hc, by rw [hs2, com_slash]⟩
        | none =>
            simp only [hh] at h
            exact absurd h (by simp)
    | none =>
        simp only [hs] at h
        exact absurd h (by simp)
  · rintro ⟨sch, w, site, mid, c, more, hsch, hw, hsite, hne, hnl, hc, rfl⟩
    have hse : dropScheme (sch ++ (w ++ (site ++ (str ".com/" ++
        (mid ++ (str "/status/" ++ (c :: more))))))) = some (w ++ (site ++
        (str ".com/" ++ (mid ++ (str "/status/" ++ (c :: more)))))) := by
      rcases hsch with rfl | rfl
      · exact dropScheme_eq_some.mpr (Or.inl rfl)
      · exact dropScheme_eq_some.mpr (Or.inr rfl)
    have hho : dropHost (w ++ (site ++ (str ".com/" ++
        (mid ++ (str "/status/" ++ (c :: more)))))) =
        some ('/' :: (mid ++ (str "/status/" ++ (c :: more)))) :=
      dropHost_eq_some.mpr ⟨w, site, hw, hsite, by rw [com_slash]⟩
    unfold matchPat1
    simp only [hse, hho]
    exact pat1Tail_iff.mpr ⟨mid ++ (str "/status/" ++ (c :: more)), rfl,
      dotPlusStatus_iff.mpr ⟨mid, str "/status/" ++ (c :: more), hne, hnl,
        statusDigitsAt_iff.mpr ⟨c, more, hc, rfl⟩, rfl⟩⟩

theorem matchPat2_iff {url : List Char} :
    matchPat2 url = true ↔ MatchesPat2 url := by
  constructor
  · intro h
    unfold matchPat2 at h
    cases hs : dropScheme url with
    | some t =>
        simp only [hs] at h
        cases hh : dropHost t with
        | some u =>
            simp only [hh] at h
            obtain ⟨w, site, hw, hsite, rfl⟩ := dropHost_eq_some.mp hh
            obtain ⟨c, more, hc, rfl⟩ := pat2Tail_iff.mp h
            rcases dropScheme_eq_some.mp hs with hs2 | hs2
            · exact ⟨str "http://", w, site, c, more, Or.inl rfl, hw, hsite,
                hc, by rw [hs2, com_i_status]⟩
            · exact ⟨str "https://", w, site, c, more, Or.inr rfl, hw, hsite,
                hc, by rw [hs2, com_i_status]⟩
        | none =>
            simp only [hh] at h
            exact absurd h (by simp)
    | none =>
        simp only [hs] at h
        exact absurd h (by simp)
  · rintro ⟨sch, w, site, c, more, hsch, hw, hsite, hc, rfl⟩
    have hse : dropScheme (sch ++ (w ++ (site ++
        (str ".com/i/status/" ++ (c :: more))))) = some (w ++ (site ++
        (str ".com/i/status/" ++ (c :: more)))) := by
      rcases hsch with rfl | rfl
      · exact dropScheme_eq_some.mpr (Or.inl rfl)
      · exact dropScheme_eq_some.mpr (Or.inr rfl)
    have hho : dropHost (w ++ (site ++ (str ".com/i/status/" ++ (c :: more)))) =
        some (str "/i/status/" ++ (c :: more)) :=
      dropHost_eq_some.mpr ⟨w, site, hw, hsite, by rw [com_i_status]⟩
    unfold matchPat2
    simp only [hse, hho]
    exact pat2Tail_iff.mpr ⟨c, more, hc, rfl⟩

/-- The central characterization of `validate_url`: it accepts exactly the
URLs with a prefix matching one of the two patterns. -/
theorem validate_url_iff {url : List Char} :
    validate_url url = true ↔ (MatchesPat1 url ∨ MatchesPat2 url) := by
  unfold validate_url
  rw [Bool.or_eq_true, matchPat1_iff, matchPat2_iff]

/-! ## Lemmas about `extract_video_id` -/

/-- `/status/\d` cannot match at a `/` that is followed by a slash-free
chunk `u` and then `/s...`: either the marker's inner letters hit the `/`
after `u` too early, or (when `u = "status"`) the character after the full
marker is the letter `s`, not a digit. -/
theorem statusDigitsAt_slash_noslash (u v : List Char)
    (h : ∀ c ∈ u, c ≠ '/') :
    statusDigitsAt ('/' :: (u ++ ('/' :: ('s' :: v)))) = false := by
  have hmk : statusMarker = ['/', 's', 't', 'a', 't', 'u', 's', '/'] := rfl
  rcases u with _ | ⟨c1, u⟩
  · simp +decide [statusDigitsAt, hmk, List.isPrefixOf]
  rcases u with _ | ⟨c2, u⟩
  · simp +decide [statusDigitsAt, hmk, List.isPrefixOf]
  rcases u with _ | ⟨c3, u⟩
  · simp +decide [statusDigitsAt, hmk, List.isPrefixOf]
  rcases u with _ | ⟨c4, u⟩
  · simp +decide [statusDigitsAt, hmk, List.isPrefixOf]
  rcases u with _ | ⟨c5, u⟩
  · simp +decide [statusDigitsAt, hmk, List.isPrefixOf]
  rcases u with _ | ⟨c6, u⟩
  · simp +decide [statusDigitsAt, hmk, List.isPrefixOf]
  rcases u with _ | ⟨c7, u⟩
  · simp +decide [statusDigitsAt, hmk, List.isPrefixOf, firstIsDigit]
  · have h7 : ('/' == c7) = false := by
      rw [beq_eq_false_iff_ne]
      intro e
      exact h c7 (by simp) e.symm
    simp +decide [statusDigitsAt, hmk, List.isPrefixOf, h7]

/-- `markerCompatible t` says that `t` could be the beginning of an
occurrence of `/status/` (one of the two is a prefix of the other). -/
def markerCompatible (t : List Char) : Bool :=
  if 8 ≤ t.length then statusMarker.isPrefixOf t else t.isPrefixOf statusMarker

theorem statusDigitsAt_false_of_incompatible {t : List Char}
    (h : markerCompatible t = false) (r : List Char) :
    statusDigitsAt (t ++ r) = false := by
  unfold statusDigitsAt
  cases hp : statusMarker.isPrefixOf (t ++ r) with
  | false => simp
  | true =>
      exfalso
      rw [List.isPrefixOf_iff_prefix] at hp
      unfold markerCompatible at h
      split at h
      · rename_i hlen
        have hmt : statusMarker <+: t :=
          List.prefix_of_prefix_length_le hp (List.prefix_append t r)
            (by rw [show statusMarker.length = 8 from rfl]; omega)
        rw [← List.isPrefixOf_iff_prefix] at hmt
        rw [hmt] at h
        exact absurd h (by simp)
      · rename_i hlen
        have htm : t <+: statusMarker :=
          List.prefix_of_prefix_length_le (List.prefix_append t r) hp
            (by rw [show statusMarker.length = 8 from rfl]; omega)
        rw [← List.isPrefixOf_iff_prefix] at htm
        rw [htm] at h
        exact absurd h (by simp)

/-- The `re.search` scan skips over a chunk `A` in which no position starts
a `/status/\d` match. -/
theorem extract_append (A B : List Char)
    (h : ∀ t, t <:+ A → t ≠ [] → statusDigitsAt (t ++ B) = false) :
    extract_video_id (A ++ B) = extract_video_id B := by
  induction A with
  | nil => rfl
  | cons a A ih =>
      rw [List.cons_append]
      have hfalse : statusDigitsAt (a :: (A ++ B)) = false := by
        have := h (a :: A) List.suffix_rfl (by simp)
        rwa [List.cons_append] at this
      simp only [extract_video_id, hfalse]
      simp only [Bool.false_eq_true, if_false]
      exact ih (fun t ht hne => h t (ht.trans (List.suffix_cons a A)) hne)

theorem extract_skip_host (P u v : List Char)
    (hP : ∀ t ∈ P.tails, t ≠ [] → (t = ['/'] ∨ markerCompatible t = false))
    (hu : ∀ c ∈ u, c ≠ '/') :
    extract_video_id (P ++ (u ++ ('/' :: ('s' :: v)))) =
      extract_video_id (u ++ ('/' :: ('s' :: v))) := by
  apply extract_append
  intro t ht hne
  rcases hP t ((List.mem_tails _ _).mpr ht) hne with rfl | hcomp
  · exact statusDigitsAt_slash_noslash u v hu
  · exact statusDigitsAt_false_of_incompatible hcomp _

theorem extract_skip_user (u B : List Char) (hu : ∀ c ∈ u, c ≠ '/') :
    extract_video_id (u ++ B) = extract_video_id B := by
  apply extract_append
  intro t ht hne
  cases t with
  | nil => exact absurd rfl hne
  | cons c t2 =>
      have hc : c ≠ '/' := hu c (ht.subset (by simp))
      have h1 : ('/' == c) = false :=
        beq_eq_false_iff_ne.mpr (fun e => hc e.symm)
      unfold statusDigitsAt
      rw [show statusMarker = '/' :: ('s' :: ('t' :: ('a' :: ('t' :: ('u' ::
        ('s' :: ('/' :: []))))))) from rfl, List.cons_append]
      simp [List.isPrefixOf, h1]

theorem extract_marker_digits (d : List Char) (hne : d ≠ [])
    (hd : ∀ ch ∈ d, ch.isDigit = true) :
    extract_video_id (statusMarker ++ d) = some d := by
  cases d with
  | nil => exact absurd rfl hne
  | cons c d2 =>
      have hsd : statusDigitsAt (statusMarker ++ (c :: d2)) = true := by
        unfold statusDigitsAt
        rw [Bool.and_eq_true, List.isPrefixOf_iff_prefix]
        refine ⟨List.prefix_append _ _, ?_⟩
        rw [show (8 : Nat) = statusMarker.length from rfl, List.drop_left]
        simpa [firstIsDigit] using hd c (by simp)
      have hform : ∀ x : List Char, statusMarker ++ x =
          '/' :: ('s' :: ('t' :: ('a' :: ('t' :: ('u' :: ('s' :: ('/' :: x)))))))
        := fun x => rfl
      rw [hform] at hsd
      rw [hform]
      simp only [extract_video_id, hsd, if_true]
      simp only [List.drop_succ_cons, List.drop_zero]
      rw [List.takeWhile_eq_self_iff.mpr hd]

/-- `extract_video_id` equals its specification: the leftmost suffix at
which `/status/\d` matches, mapped to the digit run after the marker. -/
theorem extract_eq_find (url : List Char) :
    extract_video_id url =
      (url.tails.find? statusDigitsAt).map
        (fun t => (t.drop 8).takeWhile Char.isDigit) := by
  induction url with
  | nil =>
      rw [show List.tails ([] : List Char) = [[]] from rfl, List.find?_cons]
      rw [show statusDigitsAt [] = false from rfl]
      rfl
  | cons c rest ih =>
      rw [show List.tails (c :: rest) = (c :: rest) :: List.tails rest from
        by simp [List.tails]]
      rw [List.find?_cons]
      cases h : statusDigitsAt (c :: rest) with
      | true =>
          simp only [extract_video_id, h, if_true]
          rfl
      | false =>
          simp only [extract_video_id, h, Bool.false_eq_true, if_false]
          exact ih

/-- Any URL accepted by `validate_url` contains a position where
`/status/\d` matches. -/
theorem validate_exists_statusDigits {url : List Char}
    (h : validate_url url = true) : url.tails.any statusDigitsAt = true := by
  rw [List.any_eq_true]
  rcases validate_url_iff.mp h with h1 | h2
  · obtain ⟨sch, w, site, mid, c, more, _, _, _, _, _, hc, rfl⟩ := h1
    refine ⟨str "/status/" ++ (c :: more), ?_, ?_⟩
    · rw [List.mem_tails]
      exact ⟨sch ++ (w ++ (site ++ (str ".com/" ++ mid))),
        by simp [List.append_assoc]⟩
    · exact statusDigitsAt_iff.mpr ⟨c, more, hc, rfl⟩
  · obtain ⟨sch, w, site, c, more, _, _, _, hc, rfl⟩ := h2
    have e : ∀ x : List Char,
        str ".com/i" ++ (str "/status/" ++ x) = str ".com/i/status/" ++ x :=
      fun x => rfl
    refine ⟨str "/status/" ++ (c :: more), ?_, ?_⟩
    · rw [List.mem_tails]
      exact ⟨sch ++ (w ++ (site ++ str ".com/i")), by simp [List.append_assoc, e]⟩
    · exact statusDigitsAt_iff.mpr ⟨c, more, hc, rfl⟩

/-- `extract_video_id` on a URL of the exact documented shape
`https://(www.)?(twitter|x).com/<user>/status/<digits>` returns `<digits>`. -/
theorem extract_pattern (w site user d : List Char)
    (hw : w = [] ∨ w = str "www.")
    (hsite : site = str "twitter" ∨ site = str "x")
    (_hune : user ≠ []) (hu : ∀ ch ∈ user, ch ≠ '/' ∧ ch ≠ '\n')
    (hdne : d ≠ []) (hd : ∀ ch ∈ d, ch.isDigit = true) :
    extract_video_id (str "https://" ++ (w ++ (site ++ (str ".com/" ++
      (user ++ (str "/status/" ++ d)))))) = some d := by
  have hu1 : ∀ c ∈ user, c ≠ '/' := fun c hc => (hu c hc).1
  have hmd : extract_video_id ('/' :: ('s' :: (str "tatus/" ++ d))) = some d :=
    extract_marker_digits d hdne hd
  rcases hw with rfl | rfl <;> rcases hsite with rfl | rfl
  · have hP : ∀ t ∈ (str "https://twitter.com/").tails, t ≠ [] →
        (t = ['/'] ∨ markerCompatible t = false) := by decide
    have e1 : str "https://" ++ ([] ++ (str "twitter" ++ (str ".com/" ++
        (user ++ (str "/status/" ++ d))))) =
        str "https://twitter.com/" ++
          (user ++ ('/' :: ('s' :: (str "tatus/" ++ d)))) := rfl
    rw [e1, extract_skip_host _ _ _ hP hu1, extract_skip_user _ _ hu1]
    exact hmd
  · have hP : ∀ t ∈ (str "https://x.com/").tails, t ≠ [] →
        (t = ['/'] ∨ markerCompatible t = false) := by decide
    have e1 : str "https://" ++ ([] ++ (str "x" ++ (str ".com/" ++
        (user ++ (str "/status/" ++ d))))) =
        str "https://x.com/" ++
          (user ++ ('/' :: ('s' :: (str "tatus/" ++ d)))) := rfl
    rw [e1, extract_skip_host _ _ _ hP hu1, extract_skip_user _ _ hu1]
    exact hmd
  · have hP : ∀ t ∈ (str "https://www.twitter.com/").tails, t ≠ [] →
        (t = ['/'] ∨ markerCompatible t = false) := by decide
    have e1 : str "https://" ++ (str "www." ++ (str "twitter" ++ (str ".com/" ++
        (user ++ (str "/status/" ++ d))))) =
        str "https://www.twitter.com/" ++
          (user ++ ('/' :: ('s' :: (str "tatus/" ++ d)))) := rfl
    rw [e1, extract_skip_host _ _ _ hP hu1, extract_skip_user _ _ hu1]
    exact hmd
  · have hP : ∀ t ∈ (str "https://www.x.com/").tails, t ≠ [] →
        (t = ['/'] ∨ markerCompatible t = false) := by decide
    have e1 : str "https://" ++ (str "www." ++ (str "x" ++ (str ".com/" ++
        (user ++ (str "/status/" ++ d))))) =
        str "https://www.x.com/" ++
          (user ++ ('/' :: ('s' :: (str "tatus/" ++ d)))) := rfl
    rw [e1, extract_skip_host _ _ _ hP hu1, extract_skip_user _ _ hu1]
    exact hmd

/-! ## CLI helper lemmas -/

theorem main_nil (eng : EngineOutcome) : xdownloadMain eng [] = 1 := rfl

theorem main_single (eng : EngineOutcome) (p : List Char) :
    xdownloadMain eng [p] = 1 := rfl

theorem main_formatos (eng : EngineOutcome) (p u : List Char)
    (rest : List (List Char)) :
    xdownloadMain eng (p :: (str "--formatos" :: (u :: rest))) = 0 := by
  simp only [xdownloadMain]
  rw [if_pos (by simp)]

theorem main_two (eng : EngineOutcome) (p u : List Char) :
    xdownloadMain eng [p, u] =
      (if resultSuccess (baixar_video eng u).1 then 0 else 1) := by
  simp only [xdownloadMain]
  rw [if_neg]
  intro hcon
  exact absurd hcon.2 (by simp)

/-! ## Claim theorems -/

/-- C1: for every URL on which `validate_url` returns false, both `download`
and `baixar_video` return a result with `success = false` and a non-empty
error message, and the external engine (`yt_dlp.YoutubeDL`/`extract_info`,
the second component of the returned pair) is never invoked. -/
theorem c1_invalid_url_no_engine (url : List Char) (eng : EngineOutcome)
    (h : validate_url url = false) :
    (dictLookup (download eng url).1 (str "success") = some (Val.bool false) ∧
     (∃ m, dictLookup (download eng url).1 (str "error") = some (Val.str m) ∧
       m ≠ []) ∧
     (download eng url).2 = false) ∧
    (dictLookup (baixar_video eng url).1 (str "success") =
       some (Val.bool false) ∧
     (∃ m, dictLookup (baixar_video eng url).1 (str "error") =
       some (Val.str m) ∧ m ≠ []) ∧
     (baixar_video eng url).2 = false) := by
  have h2 : validar_url url = false := h
  unfold download baixar_video
  rw [if_pos h, if_pos h2]
  refine ⟨⟨rfl, ⟨str "URL invalida para " ++ twitterName, rfl, by decide⟩, rfl⟩,
    ⟨rfl, ⟨str "URL inválida. Use uma URL do Twitter/X no formato: https://x.com/usuario/status/ID",
      rfl, by decide⟩, rfl⟩⟩

/-- Witness for C1 at the concrete invalid URL `"zzz"`. -/
theorem c1_invalid_url_no_engine_witness :
    (download EngineOutcome.noInfo (str "zzz")).2 = false ∧
    dictLookup (download EngineOutcome.noInfo (str "zzz")).1 (str "success") =
      some (Val.bool false) :=
  ⟨((c1_invalid_url_no_engine (str "zzz") EngineOutcome.noInfo
      (by decide)).1).2.2,
   ((c1_invalid_url_no_engine (str "zzz") EngineOutcome.noInfo
      (by decide)).1).1⟩

/-- C2 counterexample: `validate_url` accepts `http://x.com/a/status/1`,
which matches neither of the two literal `https://`-patterns of the claim,
refuting the claimed equivalence. -/
theorem c2_counterexample :
    validate_url (str "http://x.com/a/status/1") = true ∧
    ¬ SpecExact (str "http://x.com/a/status/1") := by
  refine ⟨by decide, ?_⟩
  rintro ⟨w, site, hw, hsite, h | h⟩
  · obtain ⟨user, d, _, _, _, _, heq⟩ := h
    have ht := congrArg (List.take 8) heq
    rw [show (8 : Nat) = (str "https://").length from rfl, List.take_left] at ht
    exact absurd ht (by decide)
  · obtain ⟨d, _, _, heq⟩ := h
    have ht := congrArg (List.take 8) heq
    rw [show (8 : Nat) = (str "https://").length from rfl, List.take_left] at ht
    exact absurd ht (by decide)

/-- C2 (amended): `validate_url` returns true iff a *prefix* of the URL
matches `https?://(www.)?(twitter|x).com/<path>/status/<digit>` (or
`/i/status/<digit>`), where `http` is accepted as well as `https`, `<path>`
is any nonempty run of non-newline characters, a single digit after
`/status/` suffices and arbitrary trailing characters are allowed; in
particular every URL of the exact documented shape validates as true. -/
theorem c2_validate_url_amended :
    (∀ url, validate_url url = true ↔ (MatchesPat1 url ∨ MatchesPat2 url)) ∧
    (∀ url, SpecExact url → validate_url url = true) := by
  refine ⟨fun url => validate_url_iff, fun url h => ?_⟩
  rw [validate_url_iff]
  obtain ⟨w, site, hw, hsite, h1 | h2⟩ := h
  · obtain ⟨user, d, hune, huch, hdne, hd, rfl⟩ := h1
    cases d with
    | nil => exact absurd rfl hdne
    | cons c d2 =>
        exact Or.inl ⟨str "https://", w, site, user, c, d2, Or.inr rfl, hw,
          hsite, hune, fun ch hch => (huch ch hch).2, hd c (by simp), rfl⟩
  · obtain ⟨d, hdne, hd, rfl⟩ := h2
    cases d with
    | nil => exact absurd rfl hdne
    | cons c d2 =>
        exact Or.inr ⟨str "https://", w, site, c, d2, Or.inr rfl, hw, hsite,
          hd c (by simp), rfl⟩

/-- Witness for C2 (amended) at the concrete URL
`https://x.com/a/status/1`. -/
theorem c2_validate_url_amended_witness :
    validate_url (str "https://x.com/a/status/1") = true :=
  c2_validate_url_amended.2 (str "https://x.com/a/status/1")
    ⟨[], str "x", Or.inl rfl, Or.inr rfl,
      Or.inl ⟨str "a", str "1", by decide, by decide, by decide, by decide,
        by decide⟩⟩

/-- C3 counterexample: on `https://x.com/status/x/status/123` the first
occurrence of `/status/` is followed by no digit, so the claimed behaviour
(`firstMarkerDigits`, the claim taken literally) yields `None`, while the
code returns the digits after the *second* occurrence. -/
theorem c3_counterexample :
    firstMarkerDigits (str "https://x.com/status/x/status/123") =
      Option.none ∧
    extract_video_id (str "https://x.com/status/x/status/123") =
      some (str "123") :=
  ⟨by decide, by decide⟩

/-- C3 (amended): `extract_video_id` returns the maximal digit run
immediately following the leftmost occurrence of `/status/` that is followed
by at least one digit (the `tails.find?` formulation), and `none`, without
raising, when there is no such occurrence; in particular on every URL
matching `https://(www.)?(twitter|x).com/<user>/status/<digits>` it returns
exactly `<digits>`. -/
theorem c3_extract_amended :
    (∀ url, extract_video_id url =
      (url.tails.find? statusDigitsAt).map
        (fun t => (t.drop 8).takeWhile Char.isDigit)) ∧
    (∀ w site user d, (w = [] ∨ w = str "www.") →
      (site = str "twitter" ∨ site = str "x") →
      user ≠ [] → (∀ ch ∈ user, ch ≠ '/' ∧ ch ≠ '\n') → d ≠ [] →
      (∀ ch ∈ d, ch.isDigit = true) →
      extract_video_id (str "https://" ++ (w ++ (site ++ (str ".com/" ++
        (user ++ (str "/status/" ++ d)))))) = some d) :=
  ⟨extract_eq_find, extract_pattern⟩

/-- Witness for C3 (amended) at the concrete URL
`https://x.com/a/status/1`. -/
theorem c3_extract_amended_witness :
    extract_video_id (str "https://" ++ ([] ++ (str "x" ++ (str ".com/" ++
      (str "a" ++ (str "/status/" ++ str "1")))))) = some (str "1") :=
  c3_extract_amended.2 [] (str "x") (str "a") (str "1") (Or.inl rfl)
    (Or.inr rfl) (by decide) (by decide) (by decide) (by decide)

/-- C4 counterexample: on the invalid URL `"nope"` the result of `download`
has exactly the keys `success` and `error`; in particular the fields
`video_id` and `platform` are absent, refuting the claim that all six fields
are present on the validation-failure path. -/
theorem c4_counterexample :
    ((download EngineOutcome.noInfo (str "nope")).1).map Prod.fst =
      [str "success", str "error"] ∧
    dictLookup (download EngineOutcome.noInfo (str "nope")).1
      (str "video_id") = Option.none ∧
    dictLookup (download EngineOutcome.noInfo (str "nope")).1
      (str "platform") = Option.none :=
  ⟨by decide, by decide, by decide⟩

/-- C4 (amended): when the URL passes validation the result of `download`
contains all six fields `success`, `filepath`, `title`, `error`, `video_id`
and `platform`; on the validation-failure path it contains only `success`
and `error`. -/
theorem c4_result_fields_amended (url : List Char) (eng : EngineOutcome) :
    if validate_url url then
      ((dictLookup (download eng url).1 (str "success")).isSome = true ∧
       (dictLookup (download eng url).1 (str "filepath")).isSome = true ∧
       (dictLookup (download eng url).1 (str "title")).isSome = true ∧
       (dictLookup (download eng url).1 (str "error")).isSome = true ∧
       (dictLookup (download eng url).1 (str "video_id")).isSome = true ∧
       (dictLookup (download eng url).1 (str "platform")).isSome = true)
    else
      ((download eng url).1).map Prod.fst = [str "success", str "error"] := by
  cases hv : validate_url url with
  | false =>
      simp only [Bool.false_eq_true, if_false]
      unfold download
      rw [if_pos hv]
      rfl
  | true =>
      simp only [if_true]
      unfold download
      rw [hv, if_neg (by decide : ¬ (true = false))]
      cases eng <;> exact ⟨rfl, rfl, rfl, rfl, rfl, rfl⟩

/-- C5 counterexample: `https://x.com/a/status/` has a `/status/` segment
followed by no digits, and `download` returns the two-field
validation-failure record: the `video_id` field is absent rather than
present with value `None`. -/
theorem c5_counterexample :
    containsSub statusMarker (str "https://x.com/a/status/") = true ∧
    (str "https://x.com/a/status/").tails.any statusDigitsAt = false ∧
    dictLookup (download EngineOutcome.noInfo
      (str "https://x.com/a/status/")).1 (str "video_id") = Option.none ∧
    ((download EngineOutcome.noInfo (str "https://x.com/a/status/")).1).map
      Prod.fst = [str "success", str "error"] :=
  ⟨by decide, by decide, by decide, by decide⟩

/-- C5 (amended): for every URL containing `/status/` but with no occurrence
of `/status/` followed by a digit, validation fails, so `download` returns
(without raising — the model is total) the two-field validation-failure
record, in which the `video_id` field is absent, and the engine is not
invoked. -/
theorem c5_no_digits_amended (url : List Char) (eng : EngineOutcome)
    (_hmarker : containsSub statusMarker url = true)
    (hnodigit : url.tails.any statusDigitsAt = false) :
    (download eng url).1 = [(str "success", Val.bool false),
      (str "error", Val.str (str "URL invalida para " ++ twitterName))] ∧
    dictLookup (download eng url).1 (str "video_id") = Option.none ∧
    (download eng url).2 = false := by
  have hv : validate_url url = false := by
    cases hv2 : validate_url url with
    | false => rfl
    | true =>
        rw [validate_exists_statusDigits hv2] at hnodigit
        exact absurd hnodigit (by simp)
  unfold download
  rw [if_pos hv]
  exact ⟨rfl, rfl, rfl⟩

/-- Witness for C5 (amended) at the concrete URL
`https://twitter.com/u/status/`. -/
theorem c5_no_digits_amended_witness :
    dictLookup (download EngineOutcome.noInfo
      (str "https://twitter.com/u/status/")).1 (str "video_id") =
      Option.none :=
  (c5_no_digits_amended (str "https://twitter.com/u/status/")
    EngineOutcome.noInfo (by decide) (by decide)).2.1

/-- C6: `get_downloader` is a case-insensitive lookup: it depends only on
the lowercased alias, returns the `TwitterDownloader` class exactly on the
registered aliases `twitter` and `x`, and otherwise fails with the
unsupported-platform error whose message lists exactly the registered
aliases; for `unknown` the message ends with exactly `twitter, x`. -/
theorem c6_get_downloader :
    (∀ q, get_downloader q =
      (if q.map Char.toLower = str "twitter" ∨ q.map Char.toLower = str "x"
       then Except.ok Downloader.TwitterDownloader
       else Except.error (unsupportedMsg (q.map Char.toLower)))) ∧
    get_downloader (str "unknown") =
      Except.error (str "Plataforma " ++ [quoteC] ++ str "unknown" ++
        [quoteC] ++ str " nao suportada. Disponiveis: twitter, x") ∧
    get_downloader (str "TWITTER") = Except.ok Downloader.TwitterDownloader := by
  refine ⟨fun q => ?_, by decide, by decide⟩
  by_cases h1 : q.map Char.toLower = str "twitter"
  · simp [get_downloader, DOWNLOADERS, List.find?_cons, h1]
  by_cases h2 : q.map Char.toLower = str "x"
  · simp +decide [get_downloader, DOWNLOADERS, List.find?_cons, h1, h2]
  · have e1 : (str "twitter" == q.map Char.toLower) = false :=
      beq_eq_false_iff_ne.mpr (fun e => h1 e.symm)
    have e2 : (str "x" == q.map Char.toLower) = false :=
      beq_eq_false_iff_ne.mpr (fun e => h2 e.symm)
    simp [get_downloader, DOWNLOADERS, List.find?_cons, h1, h2, e1, e2]

/-- C7: `detect_platform` returns the first registered alias whose class
supports the URL — since both registered aliases map to `TwitterDownloader`
and `twitter` is registered first, that is `twitter` whenever the class
matches a substring of the lowercased URL and `none` otherwise; in
particular it returns `twitter` for `https://x.com/a/status/1`. -/
theorem c7_detect_platform :
    (∀ url, detect_platform url =
      (if supports_url Downloader.TwitterDownloader url
       then some (str "twitter") else Option.none)) ∧
    detect_platform (str "https://x.com/a/status/1") = some (str "twitter") := by
  refine ⟨fun url => ?_, by decide⟩
  cases h : supports_url Downloader.TwitterDownloader url with
  | true => simp [detect_platform, DOWNLOADERS, List.find?_cons, h]
  | false => simp [detect_platform, DOWNLOADERS, List.find?_cons, h]

/-- C8 counterexample: `prog --formatos <url>` exits 0 even when the engine
fails (the claim demands 1), and `prog --plataformas` is not a recognised
option: it is treated as a download URL and exits 1 instead of listing the
platforms and exiting 0. -/
theorem c8_counterexample :
    xdownloadMain (EngineOutcome.downloadError (str "falha de rede"))
      [str "prog", str "--formatos", str "https://x.com/a/status/1"] = 0 ∧
    xdownloadMain EngineOutcome.noInfo [str "prog", str "--plataformas"] = 1 :=
  ⟨by decide, by decide⟩

/-- C8 (amended): the exit code is 1 when arguments are missing, and for
`prog <url>` it is 0 iff the download result is successful; however
`prog --formatos <url>` always exits 0, even when listing fails, and
`--plataformas` is not implemented: it is treated as a download URL and
exits 1. -/
theorem c8_exit_codes_amended :
    (∀ eng p, xdownloadMain eng [] = 1 ∧ xdownloadMain eng [p] = 1) ∧
    (∀ eng p u rest,
      xdownloadMain eng (p :: (str "--formatos" :: (u :: rest))) = 0) ∧
    (∀ eng p u, xdownloadMain eng [p, u] =
      (if resultSuccess (baixar_video eng u).1 then 0 else 1)) ∧
    (∀ eng p, xdownloadMain eng [p, str "--plataformas"] = 1) := by
  refine ⟨fun eng p => ⟨main_nil eng, main_single eng p⟩,
    main_formatos, main_two, fun eng p => ?_⟩
  rw [main_two]
  have hb : (baixar_video eng (str "--plataformas")).1 =
      [(str "success", Val.bool false),
       (str "error", Val.str (str "URL inválida. Use uma URL do Twitter/X no formato: https://x.com/usuario/status/ID"))] := by
    unfold baixar_video
    rw [if_pos (by decide : validar_url (str "--plataformas") = false)]
  rw [hb]
  rfl

/-- C9: `validate_url` is monotone under suffix extension — `re.match`
anchors only the start of the string, so appending arbitrary characters to
an accepted URL keeps it accepted. -/
theorem c9_validate_suffix_monotone (u s2 : List Char)
    (h : validate_url u = true) : validate_url (u ++ s2) = true := by
  rw [validate_url_iff] at h ⊢
  rcases h with h1 | h2
  · obtain ⟨sch, w, site, mid, c, more, hsch, hw, hsite, hne, hnl, hc, rfl⟩ := h1
    refine Or.inl ⟨sch, w, site, mid, c, more ++ s2, hsch, hw, hsite, hne,
      hnl, hc, ?_⟩
    simp [List.append_assoc]
  · obtain ⟨sch, w, site, c, more, hsch, hw, hsite, hc, rfl⟩ := h2
    refine Or.inr ⟨sch, w, site, c, more ++ s2, hsch, hw, hsite, hc, ?_⟩
    simp [List.append_assoc]

/-- Witness for C9: appending `?ref=home` to an accepted URL. -/
theorem c9_validate_suffix_monotone_witness :
    validate_url (str "https://x.com/a/status/1" ++ str "?ref=home") = true :=
  c9_validate_suffix_monotone (str "https://x.com/a/status/1")
    (str "?ref=home") (by decide)

/-- C10: platform detection and URL validation disagree on letter case: on
`HTTPS://X.COM/a/status/1`, `detect_platform` (which lowercases the URL)
returns the alias `twitter`, while the selected downloader's
case-sensitive `validate_url` rejects the URL. -/
theorem c10_detect_validate_case_mismatch :
    detect_platform (str "HTTPS://X.COM/a/status/1") = some (str "twitter") ∧
    validate_url (str "HTTPS://X.COM/a/status/1") = false :=
  ⟨by decide, by decide⟩

